import Mathlib

/-!
Shallow embedding of the advanced-button manager
(src/libs/adv_button/adv_button.c).

Machine integers are modelled as `Nat` with explicit truncation where the
C width matters: `press_count` is a `uint8_t` (increment mod 256), tick
counts are `uint32_t` (subtraction is 32-bit wraparound, `sub32`), and the
`button_callback_type` argument is a `uint8_t` (reduced mod 256 on entry).

C function pointers are modelled by the `Handler` type: `Handler.noFunction`
is the library's `no_function_callback` diagnostic handler, `Handler.user n`
an application-supplied handler.  A callback slot holding the C value `NULL`
is `none`.  Invoking a handler is modelled by emitting the pair
`(handler, gpio)` on an output list; dereferencing a `NULL` function pointer
or a `NULL` button pointer is modelled by the step returning `none`.

The global mutable state of the C file (the `buttons` linked list, the
shared `used_gpio` variable, the run state of the two FRC debounce timer
channels, and the per-pin GPIO interrupt/enable configuration) is collected
in the `State` structure.  The per-button `ETSTimer` resources are modelled
by the `pressArmed` / `holdArmed` flags of each button.
-/

set_option autoImplicit false

namespace AdvButton

def DEBOUNCE_FRECUENCY : Nat := 50

def DOUBLEPRESS_TIME : Nat := 400

def LONGPRESS_TIME : Nat := 450

def VERYLONGPRESS_TIME : Nat := 1200

def HOLDPRESS_TIME : Nat := 10000

/-- Modelled from the spec: the platform tick-to-millisecond conversion
(`portTICK_PERIOD_MS`), a FreeRTOS constant that is not part of src/.  The
spec promises a monotonic tick source "with a known tick-to-millisecond
conversion"; on this platform the tick runs at 100 Hz, so one tick is
10 ms. -/
def portTICK_PERIOD_MS : Nat := 10

def UINT32_MOD : Nat := 2 ^ 32

/-- 32-bit wraparound subtraction, the behaviour of `now - last_event_time`
on `uint32_t` operands. -/
def sub32 (a b : Nat) : Nat :=
  (a % UINT32_MOD + (UINT32_MOD - b % UINT32_MOD)) % UINT32_MOD

/-- A C `button_callback_fn` function pointer value (when not `NULL`). -/
inductive Handler where
  | noFunction
  | user (id : Nat)
deriving DecidableEq, Repr

/-- One node of the `adv_button_t` linked list.  The two `ETSTimer` fields
are represented by their armed flags. -/
structure Button where
  gpio : Nat
  singlepress_callback_fn : Option Handler
  doublepress_callback_fn : Option Handler
  longpress_callback_fn : Option Handler
  verylongpress_callback_fn : Option Handler
  holdpress_callback_fn : Option Handler
  press_count : Nat
  pressArmed : Bool
  holdArmed : Bool
  last_event_time : Nat
deriving DecidableEq, Repr

/-- The C file's global state. -/
structure State where
  buttons : List Button
  used_gpio : Nat
  frc1Running : Bool
  frc2Running : Bool
  intrAttached : Nat → Bool
  gpioEnabled : Nat → Bool

/-- `button_find_by_gpio`: linear scan of the registry list. -/
def button_find_by_gpio (gpio : Nat) : List Button → Option Button
  | [] => none
  | b :: rest => if b.gpio = gpio then some b else button_find_by_gpio gpio rest

/-- In-place mutation through the pointer returned by `button_find_by_gpio`:
replace the first list entry with the same gpio. -/
def setButton (bs : List Button) (b : Button) : List Button :=
  match bs with
  | [] => []
  | x :: rest => if x.gpio = b.gpio then b :: rest else x :: setButton rest b

/-- `push_down_timer_callback`: stop the FRC1 channel, re-read the active
pin; if it still reads pressed (0), arm the button's hold timer and record
`last_event_time`.  The C code dereferences the lookup result without a
`NULL` check, so a missing button is the error outcome `none`.  The read
pin level and the current tick count are inputs. -/
def push_down_timer_callback (level : Bool) (now : Nat) (s : State) : Option State :=
  let s1 : State := { s with frc1Running := false }
  if level = false then
    match button_find_by_gpio s1.used_gpio s1.buttons with
    | none => none
    | some b =>
        let b1 : Button := { b with holdArmed := true, last_event_time := now % UINT32_MOD }
        some { s1 with buttons := setButton s1.buttons b1 }
  else
    some s1

/-- The release-classification body of `push_up_timer_callback`, acting on
the button found for `used_gpio` after its hold timer has been disarmed:
`e` is the elapsed tick count `now - last_event_time`.  Returns the mutated
button and the list of handler invocations, or `none` on a `NULL`
function-pointer call. -/
def classifyRelease (b : Button) (gpio : Nat) (e : Nat) :
    Option (Button × List (Handler × Nat)) :=
  if VERYLONGPRESS_TIME / portTICK_PERIOD_MS < e then
    let b1 : Button := { b with press_count := 0 }
    match b1.verylongpress_callback_fn with
    | some h => some (b1, [(h, gpio)])
    | none =>
        match b1.longpress_callback_fn with
        | some h => some (b1, [(h, gpio)])
        | none =>
            match b1.singlepress_callback_fn with
            | some h => some (b1, [(h, gpio)])
            | none => none
  else if LONGPRESS_TIME / portTICK_PERIOD_MS < e then
    let b1 : Button := { b with press_count := 0 }
    match b1.longpress_callback_fn with
    | some h => some (b1, [(h, gpio)])
    | none =>
        match b1.singlepress_callback_fn with
        | some h => some (b1, [(h, gpio)])
        | none => none
  else
    match b.doublepress_callback_fn with
    | some h =>
        let b1 : Button := { b with press_count := (b.press_count + 1) % 256 }
        if 1 < b1.press_count then
          some ({ b1 with pressArmed := false, press_count := 0 }, [(h, gpio)])
        else
          some ({ b1 with pressArmed := true }, [])
    | none =>
        match b.singlepress_callback_fn with
        | some h => some (b, [(h, gpio)])
        | none => none

/-- `push_up_timer_callback`: stop the FRC2 channel, re-read the active pin;
if it still reads released (1), disarm the hold timer and classify the
release by elapsed time. -/
def push_up_timer_callback (level : Bool) (now : Nat) (s : State) :
    Option (State × List (Handler × Nat)) :=
  let s1 : State := { s with frc2Running := false }
  if level = true then
    match button_find_by_gpio s1.used_gpio s1.buttons with
    | none => none
    | some b =>
        let b1 : Button := { b with holdArmed := false }
        let e : Nat := sub32 (now % UINT32_MOD) b1.last_event_time
        match classifyRelease b1 s1.used_gpio e with
        | none => none
        | some (b2, out) =>
            some ({ s1 with buttons := setButton s1.buttons b2 }, out)
  else
    some (s1, [])

/-- `adv_button_intr_callback`: on an edge for a registered pin, record it
as the active pin and start the debounce channel matching the level read
(released starts FRC2, pressed starts FRC1).  Unregistered pins are
ignored. -/
def adv_button_intr_callback (gpio : Nat) (level : Bool) (s : State) : State :=
  match button_find_by_gpio gpio s.buttons with
  | none => s
  | some _ =>
      let s1 : State := { s with used_gpio := gpio }
      if level = true then { s1 with frc2Running := true }
      else { s1 with frc1Running := true }

/-- `adv_button_single_callback` (press-timer expiry): reset `press_count`
and invoke the single-press slot.  The C code calls the slot without a
`NULL` check, so an unset single slot is the error outcome `none`. -/
def adv_button_single_callback (b : Button) : Option (Button × List (Handler × Nat)) :=
  let b1 : Button := { b with press_count := 0 }
  match b1.singlepress_callback_fn with
  | some h => some (b1, [(h, b1.gpio)])
  | none => none

/-- `adv_button_hold_callback` (hold-timer expiry): re-read the pin; if it
still reads pressed (0), reset `press_count` and invoke the hold slot if
bound, else `no_function_callback`; otherwise do nothing. -/
def adv_button_hold_callback (level : Bool) (b : Button) : Button × List (Handler × Nat) :=
  if level = false then
    let b1 : Button := { b with press_count := 0 }
    match b1.holdpress_callback_fn with
    | some h => (b1, [(h, b1.gpio)])
    | none => (b1, [(Handler.noFunction, b1.gpio)])
  else
    (b, [])

/-- The button as it stands at the end of `adv_button_create`: zeroed by
`memset`, gpio assigned, both per-button timers disarmed, and the single
slot pointed at `no_function_callback`. -/
def defaultButton (gpio : Nat) : Button :=
  { gpio := gpio
    singlepress_callback_fn := some Handler.noFunction
    doublepress_callback_fn := none
    longpress_callback_fn := none
    verylongpress_callback_fn := none
    holdpress_callback_fn := none
    press_count := 0
    pressArmed := false
    holdArmed := false
    last_event_time := 0 }

/-- `adv_button_create`: returns `-1` (AlreadyExists) without touching the
state when the pin is registered; otherwise stops both debounce channels on
the very first registration, pushes the new button at the head of the list,
enables the input line (except gpio 0) and attaches the edge interrupt. -/
def adv_button_create (gpio : Nat) (s : State) : Int × State :=
  match button_find_by_gpio gpio s.buttons with
  | some _ => (-1, s)
  | none =>
      let s1 : State :=
        if s.buttons = [] then { s with frc1Running := false, frc2Running := false } else s
      let s2 : State := { s1 with buttons := defaultButton gpio :: s1.buttons }
      let s3 : State :=
        if gpio ≠ 0 then
          { s2 with gpioEnabled := fun g => if g = gpio then true else s2.gpioEnabled g }
        else s2
      let s4 : State :=
        { s3 with intrAttached := fun g => if g = gpio then true else s3.intrAttached g }
      (0, s4)

/-- `adv_button_register_callback_fn`: `-1` (NotFound) for an unregistered
pin; otherwise dispatch on the `uint8_t` kind.  Kind 1 substitutes
`no_function_callback` for a `NULL` argument; kinds 2-5 store the argument
as given (a `NULL` clears the slot); any other kind returns `-2`
(InvalidKind) and changes nothing. -/
def adv_button_register_callback_fn (gpio : Nat) (cb : Option Nat)
    (button_callback_type : Nat) (s : State) : Int × State :=
  match button_find_by_gpio gpio s.buttons with
  | none => (-1, s)
  | some b =>
      let k : Nat := button_callback_type % 256
      if k = 1 then
        let h : Handler :=
          match cb with
          | some n => Handler.user n
          | none => Handler.noFunction
        let b1 : Button := { b with singlepress_callback_fn := some h }
        (0, { s with buttons := setButton s.buttons b1 })
      else if k = 2 then
        let b1 : Button := { b with doublepress_callback_fn := cb.map Handler.user }
        (0, { s with buttons := setButton s.buttons b1 })
      else if k = 3 then
        let b1 : Button := { b with longpress_callback_fn := cb.map Handler.user }
        (0, { s with buttons := setButton s.buttons b1 })
      else if k = 4 then
        let b1 : Button := { b with verylongpress_callback_fn := cb.map Handler.user }
        (0, { s with buttons := setButton s.buttons b1 })
      else if k = 5 then
        let b1 : Button := { b with holdpress_callback_fn := cb.map Handler.user }
        (0, { s with buttons := setButton s.buttons b1 })
      else
        (-2, s)

/-- The `while (b->next)` removal loop of `adv_button_destroy`, with fuel.
The C loop keeps `b` fixed at the head node and never advances it, so when
the first tail node does not match the searched gpio the loop re-examines
the same node forever; the fuel argument makes that divergence observable
as `none` for every fuel value.  On exit it returns the removed node (the
C `button` local) and the new tail of the list. -/
def destroyLoop (gpio : Nat) : List Button → Nat → Option (Option Button × List Button)
  | _, 0 => none
  | tail, fuel + 1 =>
      match tail with
      | [] => some (none, [])
      | t :: rest =>
          if t.gpio = gpio then some (some t, rest)
          else destroyLoop gpio (t :: rest) fuel

/-- The tail of `adv_button_destroy` once a node has been unlinked: disarm
both of its timers, detach its edge interrupt, and disable its input line
unless it is gpio 0.  Returns the updated global state together with the
unlinked node after those mutations. -/
def destroyFinish (b : Button) (s : State) : State × Button :=
  let b1 : Button := { b with holdArmed := false, pressArmed := false }
  let s1 : State :=
    { s with intrAttached := fun g => if g = b1.gpio then false else s.intrAttached g }
  let s2 : State :=
    if b1.gpio ≠ 0 then
      { s1 with gpioEnabled := fun g => if g = b1.gpio then false else s1.gpioEnabled g }
    else s1
  (s2, b1)

/-- `adv_button_destroy`: early return on an empty registry; unlink the
head if it matches, otherwise run the (buggy, possibly divergent) removal
loop; then clean up the unlinked node, if any.  The result carries the
final value of the C `button` local so that the cleanup is observable;
`none` means the call never returned within the given fuel. -/
def adv_button_destroy (gpio fuel : Nat) (s : State) : Option (State × Option Button) :=
  match s.buttons with
  | [] => some (s, none)
  | hd :: tl =>
      if hd.gpio = gpio then
        let r := destroyFinish hd { s with buttons := tl }
        some (r.1, some r.2)
      else
        match destroyLoop gpio tl fuel with
        | none => none
        | some (none, newTl) => some ({ s with buttons := hd :: newTl }, none)
        | some (some fd, newTl) =>
            let r := destroyFinish fd { s with buttons := hd :: newTl }
            some (r.1, some r.2)

/-- One externally triggered entry into the library: an API call, an edge
interrupt, or a timer expiry.  Pin levels read by the handlers and the
current tick count are carried by the event (they are inputs from the
environment); `destroy` carries the fuel bound for its removal loop. -/
inductive Op where
  | create (gpio : Nat)
  | registerCb (gpio : Nat) (cb : Option Nat) (kind : Nat)
  | destroy (gpio : Nat) (fuel : Nat)
  | intr (gpio : Nat) (level : Bool)
  | downFire (level : Bool) (now : Nat)
  | upFire (level : Bool) (now : Nat)
  | pressFire (gpio : Nat)
  | holdFire (gpio : Nat) (level : Bool)

/-- Platform gating around the C entry points: an edge interrupt is only
delivered for a pin whose interrupt is attached, an FRC debounce expiry
only while that channel is running, and a per-button one-shot expiry only
while that timer is armed (the one-shot is cleared by firing).  `none` is
an error (null dereference) or exhausted fuel. -/
def step (op : Op) (s : State) : Option (State × List (Handler × Nat)) :=
  match op with
  | .create g => some ((adv_button_create g s).2, [])
  | .registerCb g cb k => some ((adv_button_register_callback_fn g cb k s).2, [])
  | .destroy g fuel =>
      match adv_button_destroy g fuel s with
      | none => none
      | some (s1, _) => some (s1, [])
  | .intr g lvl =>
      some (if s.intrAttached g then adv_button_intr_callback g lvl s else s, [])
  | .downFire lvl now =>
      if s.frc1Running then
        match push_down_timer_callback lvl now s with
        | none => none
        | some s1 => some (s1, [])
      else some (s, [])
  | .upFire lvl now =>
      if s.frc2Running then push_up_timer_callback lvl now s
      else some (s, [])
  | .pressFire g =>
      match button_find_by_gpio g s.buttons with
      | none => some (s, [])
      | some b =>
          if b.pressArmed then
            match adv_button_single_callback b with
            | none => none
            | some (b1, out) =>
                some ({ s with buttons := setButton s.buttons { b1 with pressArmed := false } }, out)
          else some (s, [])
  | .holdFire g lvl =>
      match button_find_by_gpio g s.buttons with
      | none => some (s, [])
      | some b =>
          if b.holdArmed then
            let r := adv_button_hold_callback lvl b
            some ({ s with buttons := setButton s.buttons { r.1 with holdArmed := false } }, r.2)
          else some (s, [])

/-- Run a sequence of entries, concatenating the handler invocations. -/
def runOps : List Op → State → Option (State × List (Handler × Nat))
  | [], s => some (s, [])
  | op :: rest, s =>
      match step op s with
      | none => none
      | some (s1, out1) =>
          match runOps rest s1 with
          | none => none
          | some (s2, out2) => some (s2, out1 ++ out2)

/-- The state of the process before any button is created. -/
def initState : State :=
  { buttons := []
    used_gpio := 0
    frc1Running := false
    frc2Running := false
    intrAttached := fun _ => false
    gpioEnabled := fun _ => false }

/-- Every registered button has a usable (non-`NULL`) single-press slot. -/
def SingleSet (s : State) : Prop :=
  ∀ b ∈ s.buttons, b.singlepress_callback_fn ≠ none

/-- Every registered button's `press_count` is 0 or 1. -/
def PressCountInv (s : State) : Prop :=
  ∀ b ∈ s.buttons, b.press_count ≤ 1

/-- The handler the very-long branch of `push_up_timer_callback` invokes:
the very-long slot if bound, else the long slot if bound, else the
single-press slot. -/
def vlTarget (b : Button) : Handler :=
  match b.verylongpress_callback_fn with
  | some h => h
  | none =>
      match b.longpress_callback_fn with
      | some h => h
      | none => b.singlepress_callback_fn.getD Handler.noFunction

/-- The handler the long branch of `push_up_timer_callback` invokes: the
long slot if bound, else the single-press slot. -/
def longTarget (b : Button) : Handler :=
  match b.longpress_callback_fn with
  | some h => h
  | none => b.singlepress_callback_fn.getD Handler.noFunction

/-- A registered button on gpio 5 with long (user 30) and very-long
(user 40) handlers bound, freshly pressed at tick 0. -/
def bC2 : Button :=
  { gpio := 5
    singlepress_callback_fn := some Handler.noFunction
    doublepress_callback_fn := none
    longpress_callback_fn := some (Handler.user 30)
    verylongpress_callback_fn := some (Handler.user 40)
    holdpress_callback_fn := none
    press_count := 0
    pressArmed := false
    holdArmed := true
    last_event_time := 0 }

/-- A process state in which `bC2` is the active button and the up-debounce
channel is running. -/
def sC2 : State :=
  { buttons := [bC2]
    used_gpio := 5
    frc1Running := false
    frc2Running := true
    intrAttached := fun _ => true
    gpioEnabled := fun _ => true }

/-- Two registered buttons, gpios 1 and 2, pin 3 not registered. -/
def sC1 : State :=
  { buttons := [defaultButton 1, defaultButton 2]
    used_gpio := 0
    frc1Running := false
    frc2Running := false
    intrAttached := fun _ => false
    gpioEnabled := fun _ => false }

/-- Two registered buttons, gpios 5 and 7, interrupts attached and inputs
enabled. -/
def sC3 : State :=
  { buttons := [defaultButton 5, defaultButton 7]
    used_gpio := 0
    frc1Running := false
    frc2Running := false
    intrAttached := fun _ => true
    gpioEnabled := fun _ => true }

/-- The state `sC3` after gpio 5 has been destroyed. -/
def sC3res : State :=
  { buttons := [defaultButton 7]
    used_gpio := 0
    frc1Running := false
    frc2Running := false
    intrAttached := fun g => if g = 5 then false else true
    gpioEnabled := fun g => if g = 5 then false else true }

/-- A registered button on gpio 5 with the default single-press handler and
a double-press handler (user 20) bound, used as a concrete fixture. -/
def bW : Button :=
  { gpio := 5
    singlepress_callback_fn := some Handler.noFunction
    doublepress_callback_fn := some (Handler.user 20)
    longpress_callback_fn := none
    verylongpress_callback_fn := none
    holdpress_callback_fn := none
    press_count := 0
    pressArmed := false
    holdArmed := false
    last_event_time := 0 }

/-- A process state holding exactly the button `bW`. -/
def sW : State :=
  { buttons := [bW]
    used_gpio := 5
    frc1Running := false
    frc2Running := false
    intrAttached := fun g => if g = 5 then true else false
    gpioEnabled := fun g => if g = 5 then true else false }

/-- The synthetic timeline of §8: create pin 5, bind single (user 10) and
double (user 20); press confirmed at tick 0, release confirmed at tick 5
(50 ms); second press confirmed at tick 15, release confirmed at tick 20
(200 ms), inside the 400 ms double-press window. -/
def C4ops : List Op :=
  [Op.create 5, Op.registerCb 5 (some 10) 1, Op.registerCb 5 (some 20) 2,
   Op.intr 5 false, Op.downFire false 0, Op.intr 5 true, Op.upFire true 5,
   Op.intr 5 false, Op.downFire false 15, Op.intr 5 true, Op.upFire true 20]

theorem find_mem {g : Nat} {bs : List Button} {b : Button}
    (h : button_find_by_gpio g bs = some b) : b ∈ bs := by
  induction bs with
  | nil => simp [button_find_by_gpio] at h
  | cons x rest ih =>
      by_cases hx : x.gpio = g
      · simp only [button_find_by_gpio, if_pos hx, Option.some.injEq] at h
        simp [h]
      · simp only [button_find_by_gpio, if_neg hx] at h
        exact List.mem_cons_of_mem _ (ih h)

theorem find_gpio {g : Nat} {bs : List Button} {b : Button}
    (h : button_find_by_gpio g bs = some b) : b.gpio = g := by
  induction bs with
  | nil => simp [button_find_by_gpio] at h
  | cons x rest ih =>
      by_cases hx : x.gpio = g
      · simp only [button_find_by_gpio, if_pos hx, Option.some.injEq] at h
        rw [← h]; exact hx
      · simp only [button_find_by_gpio, if_neg hx] at h
        exact ih h

theorem find_eq_none {g : Nat} {bs : List Button}
    (h : ∀ c ∈ bs, c.gpio ≠ g) : button_find_by_gpio g bs = none := by
  induction bs with
  | nil => rfl
  | cons x rest ih =>
      have hx : x.gpio ≠ g := h x (List.mem_cons_self x rest)
      simp only [button_find_by_gpio, if_neg hx]
      exact ih fun c hc => h c (List.mem_cons_of_mem _ hc)

theorem mem_setButton {bs : List Button} {b c : Button}
    (h : c ∈ setButton bs b) : c ∈ bs ∨ c = b := by
  induction bs with
  | nil => simp [setButton] at h
  | cons x rest ih =>
      by_cases hx : x.gpio = b.gpio
      · simp only [setButton, if_pos hx, List.mem_cons] at h
        rcases h with h | h
        · exact Or.inr h
        · exact Or.inl (List.mem_cons_of_mem _ h)
      · simp only [setButton, if_neg hx, List.mem_cons] at h
        rcases h with h | h
        · exact Or.inl (h ▸ List.mem_cons_self x rest)
        · rcases ih h with h2 | h2
          · exact Or.inl (List.mem_cons_of_mem _ h2)
          · exact Or.inr h2

theorem find_setButton {g : Nat} {bs : List Button} {b c : Button}
    (h : button_find_by_gpio g bs = some b) (hg : c.gpio = b.gpio) :
    button_find_by_gpio g (setButton bs c) = some c := by
  induction bs with
  | nil => simp [button_find_by_gpio] at h
  | cons x rest ih =>
      by_cases hx : x.gpio = g
      · simp only [button_find_by_gpio, if_pos hx, Option.some.injEq] at h
        have hbg : b.gpio = g := by rw [← h]; exact hx
        have hcb : c.gpio = g := by rw [hg]; exact hbg
        have hxc : x.gpio = c.gpio := by rw [hcb]; exact hx
        simp only [setButton, if_pos hxc, button_find_by_gpio, if_pos hcb]
      · simp only [button_find_by_gpio, if_neg hx] at h
        have hbg : b.gpio = g := find_gpio h
        have hxc : ¬ x.gpio = c.gpio := by rw [hg, hbg]; exact hx
        simp only [setButton, if_neg hxc, button_find_by_gpio, if_neg hx]
        exact ih h

theorem destroyLoop_stuck {g : Nat} {t : Button} {rest : List Button}
    (h : t.gpio ≠ g) : ∀ fuel, destroyLoop g (t :: rest) fuel = none := by
  intro fuel
  induction fuel with
  | zero => rfl
  | succ n ih => simp only [destroyLoop, if_neg h]; exact ih

theorem destroyLoop_eq_some {g : Nat} {tl newTl : List Button}
    {fd : Option Button} {fuel : Nat}
    (h : destroyLoop g tl fuel = some (fd, newTl)) :
    (tl = [] ∧ fd = none ∧ newTl = []) ∨
      (∃ t rest, tl = t :: rest ∧ t.gpio = g ∧ fd = some t ∧ newTl = rest) := by
  cases fuel with
  | zero => simp [destroyLoop] at h
  | succ n =>
      cases tl with
      | nil =>
          simp only [destroyLoop, Option.some.injEq, Prod.mk.injEq] at h
          exact Or.inl ⟨rfl, h.1.symm, h.2.symm⟩
      | cons t rest =>
          by_cases ht : t.gpio = g
          · simp only [destroyLoop, if_pos ht, Option.some.injEq, Prod.mk.injEq] at h
            exact Or.inr ⟨t, rest, rfl, ht, h.1.symm, h.2.symm⟩
          · rw [destroyLoop_stuck ht (n + 1)] at h
            exact absurd h (by simp)

theorem classify_single {b b1 : Button} {g e : Nat} {out : List (Handler × Nat)}
    (h : classifyRelease b g e = some (b1, out)) :
    b1.singlepress_callback_fn = b.singlepress_callback_fn := by
  simp only [classifyRelease] at h
  repeat' split at h
  all_goals first
    | exact Option.noConfusion h
    | (injection h with h3; injection h3 with h4 h5; subst h4; rfl)

theorem classify_pc {b b1 : Button} {g e : Nat} {out : List (Handler × Nat)}
    (hpc : b.press_count ≤ 1)
    (h : classifyRelease b g e = some (b1, out)) : b1.press_count ≤ 1 := by
  simp only [classifyRelease] at h
  repeat' split at h
  all_goals first
    | exact Option.noConfusion h
    | (injection h with h3; injection h3 with h4 h5; subst h4; (try simp only); omega)

theorem create_buttons (g : Nat) (s : State) :
    ((adv_button_create g s).2).buttons = s.buttons ∨
      ((adv_button_create g s).2).buttons = defaultButton g :: s.buttons := by
  cases hfind : button_find_by_gpio g s.buttons with
  | some b => simp [adv_button_create, hfind]
  | none =>
      simp only [adv_button_create, hfind]
      by_cases h0 : s.buttons = ([] : List Button) <;> by_cases hg : g = 0 <;>
        simp [h0, hg]

theorem create_singleSet {g : Nat} {s : State} (hs : SingleSet s) :
    SingleSet (adv_button_create g s).2 := by
  intro c hc
  rcases create_buttons g s with hb | hb
  · exact hs c (hb ▸ hc)
  · rw [hb] at hc
    rcases List.mem_cons.mp hc with h1 | h1
    · rw [h1]; simp [defaultButton]
    · exact hs c h1

theorem register_singleSet {g k : Nat} {cb : Option Nat} {s : State}
    (hs : SingleSet s) : SingleSet (adv_button_register_callback_fn g cb k s).2 := by
  unfold adv_button_register_callback_fn
  cases hfind : button_find_by_gpio g s.buttons with
  | none => exact hs
  | some b =>
      have hbs : b.singlepress_callback_fn ≠ none := hs b (find_mem hfind)
      simp only
      split
      · intro c hc
        rcases mem_setButton hc with h1 | h1
        · exact hs c h1
        · rw [h1]; simp
      · split
        · intro c hc
          rcases mem_setButton hc with h1 | h1
          · exact hs c h1
          · rw [h1]; exact hbs
        · split
          · intro c hc
            rcases mem_setButton hc with h1 | h1
            · exact hs c h1
            · rw [h1]; exact hbs
          · split
            · intro c hc
              rcases mem_setButton hc with h1 | h1
              · exact hs c h1
              · rw [h1]; exact hbs
            · split
              · intro c hc
                rcases mem_setButton hc with h1 | h1
                · exact hs c h1
                · rw [h1]; exact hbs
              · exact hs

theorem destroyFinish_buttons (b : Button) (s : State) :
    ((destroyFinish b s).1).buttons = s.buttons := by
  by_cases hb : b.gpio = 0 <;> simp [destroyFinish, hb]

theorem destroy_subset {g fuel : Nat} {s s1 : State} {fd : Option Button}
    (h : adv_button_destroy g fuel s = some (s1, fd)) :
    ∀ c ∈ s1.buttons, c ∈ s.buttons := by
  unfold adv_button_destroy at h
  cases hbs : s.buttons with
  | nil =>
      rw [hbs] at h
      dsimp only at h
      injection h with h2
      injection h2 with h3 h4
      intro c hc
      rw [← h3, hbs] at hc
      exact hc
  | cons hd tl =>
      rw [hbs] at h
      dsimp only at h
      by_cases hhd : hd.gpio = g
      · rw [if_pos hhd] at h
        injection h with h2
        injection h2 with h3 h4
        intro c hc
        rw [← h3, destroyFinish_buttons] at hc
        dsimp only at hc
        exact List.mem_cons_of_mem _ hc
      · rw [if_neg hhd] at h
        cases hloop : destroyLoop g tl fuel with
        | none => rw [hloop] at h; exact Option.noConfusion h
        | some r =>
            obtain ⟨fd2, newTl⟩ := r
            rw [hloop] at h
            rcases destroyLoop_eq_some hloop with ⟨ht, hf, hn⟩ | ⟨t, rest, ht, htg, hf, hn⟩
            · subst ht; subst hf; subst hn
              dsimp only at h
              injection h with h2
              injection h2 with h3 h4
              intro c hc
              rw [← h3] at hc
              dsimp only at hc
              exact hc
            · subst ht; subst hf; subst hn
              dsimp only at h
              injection h with h2
              injection h2 with h3 h4
              intro c hc
              rw [← h3, destroyFinish_buttons] at hc
              dsimp only at hc
              rcases List.mem_cons.mp hc with h5 | h5
              · exact h5 ▸ List.mem_cons_self hd _
              · exact List.mem_cons_of_mem _ (List.mem_cons_of_mem _ h5)

theorem destroy_singleSet {g fuel : Nat} {s s1 : State} {fd : Option Button}
    (hs : SingleSet s) (h : adv_button_destroy g fuel s = some (s1, fd)) :
    SingleSet s1 :=
  fun c hc => hs c (destroy_subset h c hc)

theorem intr_buttons (g : Nat) (lvl : Bool) (s : State) :
    (adv_button_intr_callback g lvl s).buttons = s.buttons := by
  unfold adv_button_intr_callback
  cases button_find_by_gpio g s.buttons <;> simp only
  split <;> rfl

theorem down_singleSet {lvl : Bool} {now : Nat} {s s1 : State}
    (hs : SingleSet s) (h : push_down_timer_callback lvl now s = some s1) :
    SingleSet s1 := by
  unfold push_down_timer_callback at h
  dsimp only at h
  split at h
  · cases hfind : button_find_by_gpio s.used_gpio s.buttons with
    | none => rw [hfind] at h; exact absurd h (by simp)
    | some b =>
        rw [hfind] at h
        simp only [Option.some.injEq] at h
        subst h
        intro c hc
        rcases mem_setButton hc with h1 | h1
        · exact hs c h1
        · rw [h1]; exact hs b (find_mem hfind)
  · simp only [Option.some.injEq] at h
    subst h
    exact hs

theorem up_singleSet {lvl : Bool} {now : Nat} {s s1 : State}
    {out : List (Handler × Nat)}
    (hs : SingleSet s) (h : push_up_timer_callback lvl now s = some (s1, out)) :
    SingleSet s1 := by
  unfold push_up_timer_callback at h
  dsimp only at h
  split at h
  · cases hfind : button_find_by_gpio s.used_gpio s.buttons with
    | none => rw [hfind] at h; exact absurd h (by simp)
    | some b =>
        rw [hfind] at h
        simp only at h
        cases hcl : classifyRelease { b with holdArmed := false }
            s.used_gpio (sub32 (now % UINT32_MOD) b.last_event_time) with
        | none => rw [hcl] at h; exact absurd h (by simp)
        | some r =>
            rw [hcl] at h
            obtain ⟨b2, out2⟩ := r
            simp only [Option.some.injEq, Prod.mk.injEq] at h
            obtain ⟨h3, h4⟩ := h
            subst h3
            intro c hc
            rcases mem_setButton hc with h1 | h1
            · exact hs c h1
            · rw [h1, classify_single hcl]
              exact hs b (find_mem hfind)
  · simp only [Option.some.injEq, Prod.mk.injEq] at h
    obtain ⟨h3, h4⟩ := h
    subst h3
    exact hs

theorem create_pcInv {g : Nat} {s : State} (hs : PressCountInv s) :
    PressCountInv (adv_button_create g s).2 := by
  intro c hc
  rcases create_buttons g s with hb | hb
  · exact hs c (hb ▸ hc)
  · rw [hb] at hc
    rcases List.mem_cons.mp hc with h1 | h1
    · rw [h1]; simp [defaultButton]
    · exact hs c h1

theorem register_pcInv {g k : Nat} {cb : Option Nat} {s : State}
    (hs : PressCountInv s) : PressCountInv (adv_button_register_callback_fn g cb k s).2 := by
  unfold adv_button_register_callback_fn
  cases hfind : button_find_by_gpio g s.buttons with
  | none => exact hs
  | some b =>
      have hbs : b.press_count ≤ 1 := hs b (find_mem hfind)
      simp only
      split
      · intro c hc
        rcases mem_setButton hc with h1 | h1
        · exact hs c h1
        · rw [h1]; exact hbs
      · split
        · intro c hc
          rcases mem_setButton hc with h1 | h1
          · exact hs c h1
          · rw [h1]; exact hbs
        · split
          · intro c hc
            rcases mem_setButton hc with h1 | h1
            · exact hs c h1
            · rw [h1]; exact hbs
          · split
            · intro c hc
              rcases mem_setButton hc with h1 | h1
              · exact hs c h1
              · rw [h1]; exact hbs
            · split
              · intro c hc
                rcases mem_setButton hc with h1 | h1
                · exact hs c h1
                · rw [h1]; exact hbs
              · exact hs

theorem destroy_pcInv {g fuel : Nat} {s s1 : State} {fd : Option Button}
    (hs : PressCountInv s) (h : adv_button_destroy g fuel s = some (s1, fd)) :
    PressCountInv s1 :=
  fun c hc => hs c (destroy_subset h c hc)

theorem down_pcInv {lvl : Bool} {now : Nat} {s s1 : State}
    (hs : PressCountInv s) (h : push_down_timer_callback lvl now s = some s1) :
    PressCountInv s1 := by
  unfold push_down_timer_callback at h
  dsimp only at h
  split at h
  · cases hfind : button_find_by_gpio s.used_gpio s.buttons with
    | none => rw [hfind] at h; exact absurd h (by simp)
    | some b =>
        rw [hfind] at h
        simp only [Option.some.injEq] at h
        subst h
        intro c hc
        rcases mem_setButton hc with h1 | h1
        · exact hs c h1
        · rw [h1]; exact hs b (find_mem hfind)
  · simp only [Option.some.injEq] at h
    subst h
    exact hs

theorem up_pcInv {lvl : Bool} {now : Nat} {s s1 : State}
    {out : List (Handler × Nat)}
    (hs : PressCountInv s) (h : push_up_timer_callback lvl now s = some (s1, out)) :
    PressCountInv s1 := by
  unfold push_up_timer_callback at h
  dsimp only at h
  split at h
  · cases hfind : button_find_by_gpio s.used_gpio s.buttons with
    | none => rw [hfind] at h; exact absurd h (by simp)
    | some b =>
        rw [hfind] at h
        simp only at h
        cases hcl : classifyRelease { b with holdArmed := false }
            s.used_gpio (sub32 (now % UINT32_MOD) b.last_event_time) with
        | none => rw [hcl] at h; exact absurd h (by simp)
        | some r =>
            rw [hcl] at h
            obtain ⟨b2, out2⟩ := r
            simp only [Option.some.injEq, Prod.mk.injEq] at h
            obtain ⟨h3, h4⟩ := h
            subst h3
            intro c hc
            rcases mem_setButton hc with h1 | h1
            · exact hs c h1
            · rw [h1]
              have hb1 : ({ b with holdArmed := false } : Button).press_count ≤ 1 :=
                hs b (find_mem hfind)
              exact classify_pc hb1 hcl
  · simp only [Option.some.injEq, Prod.mk.injEq] at h
    obtain ⟨h3, h4⟩ := h
    subst h3
    exact hs

theorem step_singleSet {op : Op} {s s1 : State} {out : List (Handler × Nat)}
    (hs : SingleSet s) (h : step op s = some (s1, out)) : SingleSet s1 := by
  cases op with
  | create g =>
      simp only [step, Option.some.injEq, Prod.mk.injEq] at h
      rw [← h.1]
      exact create_singleSet hs
  | registerCb g cb k =>
      simp only [step, Option.some.injEq, Prod.mk.injEq] at h
      rw [← h.1]
      exact register_singleSet hs
  | destroy g fuel =>
      simp only [step] at h
      cases hd : adv_button_destroy g fuel s with
      | none => rw [hd] at h; exact absurd h (by simp)
      | some r =>
          obtain ⟨s2, fd⟩ := r
          rw [hd] at h
          simp only [Option.some.injEq, Prod.mk.injEq] at h
          rw [← h.1]
          exact destroy_singleSet hs hd
  | intr g lvl =>
      simp only [step, Option.some.injEq, Prod.mk.injEq] at h
      rw [← h.1]
      split
      · intro c hc
        rw [intr_buttons] at hc
        exact hs c hc
      · exact hs
  | downFire lvl now =>
      simp only [step] at h
      split at h
      · cases hd : push_down_timer_callback lvl now s with
        | none => rw [hd] at h; exact absurd h (by simp)
        | some s2 =>
            rw [hd] at h
            simp only [Option.some.injEq, Prod.mk.injEq] at h
            rw [← h.1]
            exact down_singleSet hs hd
      · simp only [Option.some.injEq, Prod.mk.injEq] at h
        rw [← h.1]
        exact hs
  | upFire lvl now =>
      simp only [step] at h
      split at h
      · exact up_singleSet hs h
      · simp only [Option.some.injEq, Prod.mk.injEq] at h
        rw [← h.1]
        exact hs
  | pressFire g =>
      simp only [step] at h
      cases hfind : button_find_by_gpio g s.buttons with
      | none =>
          rw [hfind] at h
          simp only [Option.some.injEq, Prod.mk.injEq] at h
          rw [← h.1]
          exact hs
      | some b =>
          rw [hfind] at h
          simp only at h
          split at h
          · cases hcb : adv_button_single_callback b with
            | none => rw [hcb] at h; exact absurd h (by simp)
            | some r =>
                obtain ⟨b1, out1⟩ := r
                rw [hcb] at h
                simp only [Option.some.injEq, Prod.mk.injEq] at h
                rw [← h.1]
                intro c hc
                rcases mem_setButton hc with h1 | h1
                · exact hs c h1
                · rw [h1]
                  unfold adv_button_single_callback at hcb
                  dsimp only at hcb
                  cases hss : b.singlepress_callback_fn with
                  | none => rw [hss] at hcb; exact absurd hcb (by simp)
                  | some hv =>
                      rw [hss] at hcb
                      simp only [Option.some.injEq, Prod.mk.injEq] at hcb
                      rw [← hcb.1]
                      simp [hss]
          · simp only [Option.some.injEq, Prod.mk.injEq] at h
            rw [← h.1]
            exact hs
  | holdFire g lvl =>
      simp only [step] at h
      cases hfind : button_find_by_gpio g s.buttons with
      | none =>
          rw [hfind] at h
          simp only [Option.some.injEq, Prod.mk.injEq] at h
          rw [← h.1]
          exact hs
      | some b =>
          rw [hfind] at h
          simp only at h
          split at h
          · simp only [Option.some.injEq, Prod.mk.injEq] at h
            rw [← h.1]
            intro c hc
            rcases mem_setButton hc with h1 | h1
            · exact hs c h1
            · rw [h1]
              have hbs : b.singlepress_callback_fn ≠ none := hs b (find_mem hfind)
              unfold adv_button_hold_callback
              split
              · cases b.holdpress_callback_fn <;> simp <;> exact hbs
              · exact hbs
          · simp only [Option.some.injEq, Prod.mk.injEq] at h
            rw [← h.1]
            exact hs

theorem step_pcInv {op : Op} {s s1 : State} {out : List (Handler × Nat)}
    (hs : PressCountInv s) (h : step op s = some (s1, out)) : PressCountInv s1 := by
  cases op with
  | create g =>
      simp only [step, Option.some.injEq, Prod.mk.injEq] at h
      rw [← h.1]
      exact create_pcInv hs
  | registerCb g cb k =>
      simp only [step, Option.some.injEq, Prod.mk.injEq] at h
      rw [← h.1]
      exact register_pcInv hs
  | destroy g fuel =>
      simp only [step] at h
      cases hd : adv_button_destroy g fuel s with
      | none => rw [hd] at h; exact absurd h (by simp)
      | some r =>
          obtain ⟨s2, fd⟩ := r
          rw [hd] at h
          simp only [Option.some.injEq, Prod.mk.injEq] at h
          rw [← h.1]
          exact destroy_pcInv hs hd
  | intr g lvl =>
      simp only [step, Option.some.injEq, Prod.mk.injEq] at h
      rw [← h.1]
      split
      · intro c hc
        rw [intr_buttons] at hc
        exact hs c hc
      · exact hs
  | downFire lvl now =>
      simp only [step] at h
      split at h
      · cases hd : push_down_timer_callback lvl now s with
        | none => rw [hd] at h; exact absurd h (by simp)
        | some s2 =>
            rw [hd] at h
            simp only [Option.some.injEq, Prod.mk.injEq] at h
            rw [← h.1]
            exact down_pcInv hs hd
      · simp only [Option.some.injEq, Prod.mk.injEq] at h
        rw [← h.1]
        exact hs
  | upFire lvl now =>
      simp only [step] at h
      split at h
      · exact up_pcInv hs h
      · simp only [Option.some.injEq, Prod.mk.injEq] at h
        rw [← h.1]
        exact hs
  | pressFire g =>
      simp only [step] at h
      cases hfind : button_find_by_gpio g s.buttons with
      | none =>
          rw [hfind] at h
          simp only [Option.some.injEq, Prod.mk.injEq] at h
          rw [← h.1]
          exact hs
      | some b =>
          rw [hfind] at h
          simp only at h
          split at h
          · cases hcb : adv_button_single_callback b with
            | none => rw [hcb] at h; exact absurd h (by simp)
            | some r =>
                obtain ⟨b1, out1⟩ := r
                rw [hcb] at h
                simp only [Option.some.injEq, Prod.mk.injEq] at h
                rw [← h.1]
                intro c hc
                rcases mem_setButton hc with h1 | h1
                · exact hs c h1
                · rw [h1]
                  unfold adv_button_single_callback at hcb
                  dsimp only at hcb
                  cases hss : b.singlepress_callback_fn with
                  | none => rw [hss] at hcb; exact absurd hcb (by simp)
                  | some hv =>
                      rw [hss] at hcb
                      simp only [Option.some.injEq, Prod.mk.injEq] at hcb
                      rw [← hcb.1]
                      simp
          · simp only [Option.some.injEq, Prod.mk.injEq] at h
            rw [← h.1]
            exact hs
  | holdFire g lvl =>
      simp only [step] at h
      cases hfind : button_find_by_gpio g s.buttons with
      | none =>
          rw [hfind] at h
          simp only [Option.some.injEq, Prod.mk.injEq] at h
          rw [← h.1]
          exact hs
      | some b =>
          rw [hfind] at h
          simp only at h
          split at h
          · simp only [Option.some.injEq, Prod.mk.injEq] at h
            rw [← h.1]
            intro c hc
            rcases mem_setButton hc with h1 | h1
            · exact hs c h1
            · rw [h1]
              have hbs : b.press_count ≤ 1 := hs b (find_mem hfind)
              unfold adv_button_hold_callback
              split
              · cases b.holdpress_callback_fn <;> simp
              · exact hbs
          · simp only [Option.some.injEq, Prod.mk.injEq] at h
            rw [← h.1]
            exact hs

theorem runOps_singleSet {l : List Op} {s s1 : State} {out : List (Handler × Nat)}
    (hs : SingleSet s) (h : runOps l s = some (s1, out)) : SingleSet s1 := by
  induction l generalizing s s1 out with
  | nil =>
      simp only [runOps, Option.some.injEq, Prod.mk.injEq] at h
      rw [← h.1]
      exact hs
  | cons op rest ih =>
      simp only [runOps] at h
      cases hstep : step op s with
      | none => rw [hstep] at h; exact absurd h (by simp)
      | some r =>
          obtain ⟨s2, out2⟩ := r
          rw [hstep] at h
          simp only at h
          cases hrun : runOps rest s2 with
          | none => rw [hrun] at h; exact absurd h (by simp)
          | some r2 =>
              obtain ⟨s3, out3⟩ := r2
              rw [hrun] at h
              simp only [Option.some.injEq, Prod.mk.injEq] at h
              rw [← h.1]
              exact ih (step_singleSet hs hstep) hrun

theorem runOps_pcInv {l : List Op} {s s1 : State} {out : List (Handler × Nat)}
    (hs : PressCountInv s) (h : runOps l s = some (s1, out)) : PressCountInv s1 := by
  induction l generalizing s s1 out with
  | nil =>
      simp only [runOps, Option.some.injEq, Prod.mk.injEq] at h
      rw [← h.1]
      exact hs
  | cons op rest ih =>
      simp only [runOps] at h
      cases hstep : step op s with
      | none => rw [hstep] at h; exact absurd h (by simp)
      | some r =>
          obtain ⟨s2, out2⟩ := r
          rw [hstep] at h
          simp only at h
          cases hrun : runOps rest s2 with
          | none => rw [hrun] at h; exact absurd h (by simp)
          | some r2 =>
              obtain ⟨s3, out3⟩ := r2
              rw [hrun] at h
              simp only [Option.some.injEq, Prod.mk.injEq] at h
              rw [← h.1]
              exact ih (step_pcInv hs hstep) hrun

/-- Claim C1: the claim says `adv_button_destroy` terminates for every
registry state and pin, and is a no-op for an unregistered pin.  The code
refutes it: with two buttons registered (gpios 1 and 2) and pin 3 not
registered, the removal loop never advances its cursor (the C code lacks
`b = b->next`), so the call never returns for any fuel bound. -/
theorem C1_destroy_never_terminates :
    button_find_by_gpio 3 sC1.buttons = none ∧
      ∀ fuel : Nat, adv_button_destroy 3 fuel sC1 = none := by
  refine ⟨by decide, ?_⟩
  intro fuel
  have hbs : sC1.buttons = defaultButton 1 :: [defaultButton 2] := rfl
  unfold adv_button_destroy
  rw [hbs]
  dsimp only
  rw [if_neg (by decide : ¬ (defaultButton 1).gpio = 3)]
  rw [destroyLoop_stuck (by decide) fuel]

/-- Claim C5: `adv_button_create` on an already-registered pin returns `-1`
(AlreadyExists) and returns the state untouched: the existing button, every
callback slot, `press_count`, `last_event_time` and the registry order are
all unchanged. -/
theorem C5_create_already_exists {s : State} {g : Nat} {b : Button}
    (hfind : button_find_by_gpio g s.buttons = some b) :
    adv_button_create g s = (-1, s) := by
  unfold adv_button_create
  rw [hfind]

/-- Witness for C5 at a concrete state. -/
theorem C5_witness : adv_button_create 5 sW = (-1, sW) :=
  @C5_create_already_exists sW 5 bW (by decide)

/-- Claim C6: `adv_button_register_callback_fn` with a kind outside the
closed enumeration 1..5 (as a `uint8_t`) on a registered pin returns `-2`
(InvalidKind) with the state, and hence every callback slot, untouched;
`-2` is distinct from the `-1` (NotFound) returned for an unregistered
pin. -/
theorem C6_register_invalid_kind {s : State} {g kind : Nat} {cb : Option Nat} {b : Button}
    (hfind : button_find_by_gpio g s.buttons = some b)
    (hk : kind % 256 < 1 ∨ 5 < kind % 256) :
    adv_button_register_callback_fn g cb kind s = (-2, s) ∧
      (-2 : Int) ≠ (-1 : Int) ∧
      ∀ g2, button_find_by_gpio g2 s.buttons = none →
        adv_button_register_callback_fn g2 cb kind s = (-1, s) := by
  refine ⟨?_, by decide, ?_⟩
  · have h1 : ¬ kind % 256 = 1 := by omega
    have h2 : ¬ kind % 256 = 2 := by omega
    have h3 : ¬ kind % 256 = 3 := by omega
    have h4 : ¬ kind % 256 = 4 := by omega
    have h5 : ¬ kind % 256 = 5 := by omega
    unfold adv_button_register_callback_fn
    rw [hfind]
    dsimp only
    rw [if_neg h1, if_neg h2, if_neg h3, if_neg h4, if_neg h5]
  · intro g2 hg2
    unfold adv_button_register_callback_fn
    rw [hg2]

/-- Witness for C6: kind 7 on registered pin 5 and on unregistered pin 6. -/
theorem C6_witness :
    adv_button_register_callback_fn 5 (some 9) 7 sW = (-2, sW) ∧
      adv_button_register_callback_fn 6 (some 9) 7 sW = (-1, sW) :=
  ⟨(@C6_register_invalid_kind sW 5 7 (some 9) bW (by decide) (by decide)).1,
   (@C6_register_invalid_kind sW 5 7 (some 9) bW (by decide) (by decide)).2.2 6 (by decide)⟩

/-- Claim C8: when the hold timer fires, `adv_button_hold_callback` re-reads
the pin.  If it still reads pressed (level 0), `press_count` is reset to 0
and the hold-press handler is invoked if bound, else the default diagnostic
handler; if it no longer reads pressed, nothing is dispatched and the
button is unchanged. -/
theorem C8_hold_fire (b : Button) :
    adv_button_hold_callback false b =
        ({ b with press_count := 0 },
          [(b.holdpress_callback_fn.getD Handler.noFunction, b.gpio)]) ∧
      adv_button_hold_callback true b = (b, []) := by
  constructor
  · unfold adv_button_hold_callback
    cases hh : b.holdpress_callback_fn <;> simp [hh]
  · rfl

/-- Claim C10: `adv_button_register_callback_fn` with an empty (`NULL`)
handler on the double, long, very-long, or hold slot (kinds 2-5) returns 0
(Ok) and clears exactly that slot to unset; unlike kind 1, where the
default diagnostic handler is substituted instead. -/
theorem C10_register_empty_clears {s : State} {g : Nat} {b : Button}
    (hfind : button_find_by_gpio g s.buttons = some b) :
    (adv_button_register_callback_fn g none 2 s =
        (0, { s with buttons := setButton s.buttons { b with doublepress_callback_fn := none } })) ∧
    (adv_button_register_callback_fn g none 3 s =
        (0, { s with buttons := setButton s.buttons { b with longpress_callback_fn := none } })) ∧
    (adv_button_register_callback_fn g none 4 s =
        (0, { s with buttons := setButton s.buttons { b with verylongpress_callback_fn := none } })) ∧
    (adv_button_register_callback_fn g none 5 s =
        (0, { s with buttons := setButton s.buttons { b with holdpress_callback_fn := none } })) ∧
    (adv_button_register_callback_fn g none 1 s =
        (0, { s with buttons := setButton s.buttons { b with singlepress_callback_fn := some Handler.noFunction } })) := by
  refine ⟨?_, ?_, ?_, ?_, ?_⟩ <;> (unfold adv_button_register_callback_fn; rw [hfind]; rfl)

/-- Witness for C10: clearing the double slot of the concrete button. -/
theorem C10_witness :
    adv_button_register_callback_fn 5 none 2 sW =
      (0, { sW with buttons := setButton sW.buttons { bW with doublepress_callback_fn := none } }) :=
  (@C10_register_empty_clears sW 5 bW (by decide)).1

/-- Counterexample to claim C2 as stated: at a confirmed release exactly
1200 ms (120 ticks) after the confirmed press, the elapsed time satisfies
the claim's `elapsed >= VERY_LONG_THRESHOLD` and the very-long handler
(user 40) is bound, yet the code (which compares with strict `>`)
dispatches the long handler (user 30) instead. -/
theorem C2_counterexample :
    VERYLONGPRESS_TIME ≤ sub32 120 0 * portTICK_PERIOD_MS ∧
      bC2.verylongpress_callback_fn = some (Handler.user 40) ∧
      Option.map Prod.snd (push_up_timer_callback true 120 sC2) =
        some [(Handler.user 30, 5)] ∧
      (Handler.user 30 : Handler) ≠ Handler.user 40 := by
  refine ⟨by decide, by decide, ?_, by decide⟩
  decide

/-- Claim C2, amended: the code compares the elapsed tick count with the
tick-converted thresholds using strict `>`, not `>=`.  On a confirmed
release (up-debounce fire, pin still released): if elapsed strictly exceeds
`VERYLONGPRESS_TIME / portTICK_PERIOD_MS` ticks, the very-long handler is
dispatched if bound, else the long handler if bound, else the single-press
handler, and `press_count` is reset to 0; else if elapsed strictly exceeds
`LONGPRESS_TIME / portTICK_PERIOD_MS` ticks, the long handler is dispatched
if bound, else the single-press handler, and `press_count` is reset to 0. -/
theorem C2_up_release_thresholds {s : State} {b : Button} {now : Nat}
    (hfind : button_find_by_gpio s.used_gpio s.buttons = some b)
    (hsingle : b.singlepress_callback_fn ≠ none) :
    (VERYLONGPRESS_TIME / portTICK_PERIOD_MS < sub32 (now % UINT32_MOD) b.last_event_time →
      push_up_timer_callback true now s =
        some ({ s with frc2Running := false, buttons := setButton s.buttons { b with holdArmed := false, press_count := 0 } },
          [(vlTarget b, s.used_gpio)])) ∧
    (sub32 (now % UINT32_MOD) b.last_event_time ≤ VERYLONGPRESS_TIME / portTICK_PERIOD_MS →
      LONGPRESS_TIME / portTICK_PERIOD_MS < sub32 (now % UINT32_MOD) b.last_event_time →
      push_up_timer_callback true now s =
        some ({ s with frc2Running := false, buttons := setButton s.buttons { b with holdArmed := false, press_count := 0 } },
          [(longTarget b, s.used_gpio)])) := by
  constructor
  · intro hvl
    unfold push_up_timer_callback
    dsimp only
    rw [if_pos rfl, hfind]
    dsimp only
    unfold classifyRelease
    dsimp only
    rw [if_pos hvl]
    cases hv : b.verylongpress_callback_fn with
    | some h => simp [hv, vlTarget]
    | none =>
        cases hl : b.longpress_callback_fn with
        | some h => simp [hv, hl, vlTarget]
        | none =>
            cases hs2 : b.singlepress_callback_fn with
            | none => exact absurd hs2 hsingle
            | some h => simp [hv, hl, hs2, vlTarget]
  · intro hle hlong
    have hnvl : ¬ VERYLONGPRESS_TIME / portTICK_PERIOD_MS <
        sub32 (now % UINT32_MOD) b.last_event_time := by omega
    unfold push_up_timer_callback
    dsimp only
    rw [if_pos rfl, hfind]
    dsimp only
    unfold classifyRelease
    dsimp only
    rw [if_neg hnvl, if_pos hlong]
    cases hl : b.longpress_callback_fn with
    | some h => simp [hl, longTarget]
    | none =>
        cases hs2 : b.singlepress_callback_fn with
        | none => exact absurd hs2 hsingle
        | some h => simp [hl, hs2, longTarget]

/-- Witness for C2: the amended theorem at the concrete state `sC2`, once
at 121 ticks (very-long branch) and once at 46 ticks (long branch). -/
theorem C2_witness :
    push_up_timer_callback true 121 sC2 =
      some ({ sC2 with frc2Running := false, buttons := setButton sC2.buttons { bC2 with holdArmed := false, press_count := 0 } },
        [(vlTarget bC2, sC2.used_gpio)]) ∧
    push_up_timer_callback true 46 sC2 =
      some ({ sC2 with frc2Running := false, buttons := setButton sC2.buttons { bC2 with holdArmed := false, press_count := 0 } },
        [(longTarget bC2, sC2.used_gpio)]) :=
  ⟨(@C2_up_release_thresholds sC2 bC2 121 (by decide) (by decide)).1 (by decide),
   (@C2_up_release_thresholds sC2 bC2 46 (by decide) (by decide)).2 (by decide) (by decide)⟩

/-- Claim C7: every registered button always has a usable single-press
handler.  The invariant is preserved by every sequence of operations;
`adv_button_create` installs the default diagnostic handler; and
`adv_button_register_callback_fn` on the single slot with an empty handler
restores the default diagnostic handler instead of clearing the slot. -/
theorem C7_single_always_set :
    (∀ (s s1 : State) (l : List Op) (out : List (Handler × Nat)),
        SingleSet s → runOps l s = some (s1, out) → SingleSet s1) ∧
    (∀ (g : Nat) (s : State), button_find_by_gpio g s.buttons = none →
        button_find_by_gpio g ((adv_button_create g s).2).buttons = some (defaultButton g) ∧
          (defaultButton g).singlepress_callback_fn = some Handler.noFunction) ∧
    (∀ (g : Nat) (s : State) (b : Button), button_find_by_gpio g s.buttons = some b →
        button_find_by_gpio g ((adv_button_register_callback_fn g none 1 s).2).buttons =
          some { b with singlepress_callback_fn := some Handler.noFunction }) := by
  refine ⟨fun s s1 l out hs h => runOps_singleSet hs h, ?_, ?_⟩
  · intro g s h
    refine ⟨?_, rfl⟩
    unfold adv_button_create
    rw [h]
    dsimp only
    by_cases h0 : s.buttons = ([] : List Button) <;> by_cases hg : g = 0 <;>
      simp [h0, hg, button_find_by_gpio, defaultButton]
  · intro g s b h
    unfold adv_button_register_callback_fn
    rw [h]
    dsimp only
    rw [if_pos (by norm_num : (1 : Nat) % 256 = 1)]
    exact find_setButton h rfl

/-- Witness for C7: the invariant after creating pin 5 from the initial
state, and the restored default single slot on the concrete button. -/
theorem C7_witness :
    SingleSet ((adv_button_create 5 initState).2) ∧
      button_find_by_gpio 5 ((adv_button_register_callback_fn 5 none 1 sW).2).buttons =
        some { bW with singlepress_callback_fn := some Handler.noFunction } :=
  ⟨C7_single_always_set.1 initState ((adv_button_create 5 initState).2) [Op.create 5] []
      (fun b hb => absurd hb (by simp [initState])) rfl,
   C7_single_always_set.2.2 5 sW bW (by decide)⟩

/-- Claim C9: under every sequence of operations, every registered button's
`press_count` stays 0 or 1: the only increment site (the double-press path
of the up-debounce fire) resets it to 0 whenever it would exceed 1, and
every dispatch path that reads it resets it to 0. -/
theorem C9_press_count_always_le_one {l : List Op} {s s1 : State}
    {out : List (Handler × Nat)}
    (hs : PressCountInv s) (h : runOps l s = some (s1, out)) : PressCountInv s1 :=
  runOps_pcInv hs h

/-- Witness for C9 after creating pin 5 from the initial state. -/
theorem C9_witness : PressCountInv ((adv_button_create 5 initState).2) :=
  @C9_press_count_always_le_one [Op.create 5] initState ((adv_button_create 5 initState).2) []
    (fun b hb => absurd hb (by simp [initState])) rfl

theorem intr_noop_of_not_found {g : Nat} {lvl : Bool} {s : State}
    (h : button_find_by_gpio g s.buttons = none) :
    adv_button_intr_callback g lvl s = s := by
  unfold adv_button_intr_callback
  rw [h]

theorem not_mem_map_gpio {x : Nat} {bs : List Button}
    (h : x ∉ bs.map Button.gpio) : ∀ c ∈ bs, c.gpio ≠ x := by
  intro c hc hcx
  exact h (hcx ▸ List.mem_map_of_mem Button.gpio hc)

theorem destroyFinish_fst_intr (b : Button) (s : State) :
    ((destroyFinish b s).1).intrAttached b.gpio = false := by
  by_cases hb : b.gpio = 0 <;> simp [destroyFinish, hb]

theorem destroyFinish_fst_gpioEnabled_ne (b : Button) (s : State) (hb : b.gpio ≠ 0) :
    ((destroyFinish b s).1).gpioEnabled b.gpio = false := by
  simp [destroyFinish, hb]

theorem destroyFinish_fst_gpioEnabled_zero (b : Button) (s : State) (hb : b.gpio = 0) :
    ∀ g2, ((destroyFinish b s).1).gpioEnabled g2 = s.gpioEnabled g2 := by
  intro g2
  simp [destroyFinish, hb]

theorem destroyFinish_snd (b : Button) (s : State) :
    (destroyFinish b s).2 = { b with holdArmed := false, pressArmed := false } := rfl

/-- Claim C3: after a terminating `adv_button_destroy(p)` on a registered
pin `p` (with the registry holding at most one button per pin), the pin is
no longer found, the removed node has both per-button timers disarmed, the
pin's edge interrupt is detached, its input line is disabled unless it is
the always-on gpio 0 (whose enable state is untouched), and a further edge
interrupt on `p` changes nothing and dispatches nothing. -/
theorem C3_destroy_postconditions {s : State} {p fuel : Nat} {b : Button}
    {s1 : State} {fd : Option Button}
    (hreg : button_find_by_gpio p s.buttons = some b)
    (hnd : (s.buttons.map Button.gpio).Nodup)
    (hrun : adv_button_destroy p fuel s = some (s1, fd)) :
    button_find_by_gpio p s1.buttons = none ∧
      fd = some { b with holdArmed := false, pressArmed := false } ∧
      s1.intrAttached p = false ∧
      (p ≠ 0 → s1.gpioEnabled p = false) ∧
      (p = 0 → ∀ g2, s1.gpioEnabled g2 = s.gpioEnabled g2) ∧
      (∀ lvl, adv_button_intr_callback p lvl s1 = s1) := by
  unfold adv_button_destroy at hrun
  cases hbs : s.buttons with
  | nil =>
      rw [hbs] at hreg
      exact absurd hreg (by simp [button_find_by_gpio])
  | cons hd tl =>
      rw [hbs] at hrun hreg hnd
      dsimp only at hrun
      simp only [List.map_cons, List.nodup_cons] at hnd
      obtain ⟨hnd1, hnd2⟩ := hnd
      by_cases hhd : hd.gpio = p
      · simp only [button_find_by_gpio, if_pos hhd, Option.some.injEq] at hreg
        rw [if_pos hhd] at hrun
        injection hrun with h2
        injection h2 with h3 h4
        subst h3
        subst h4
        have hfindnone :
            button_find_by_gpio p
              ((destroyFinish hd { s with buttons := tl }).1).buttons = none := by
          rw [destroyFinish_buttons]
          dsimp only
          have hp : p ∉ tl.map Button.gpio := hhd ▸ hnd1
          exact find_eq_none (not_mem_map_gpio hp)
        refine ⟨hfindnone, ?_, ?_, ?_, ?_, fun lvl => intr_noop_of_not_found hfindnone⟩
        · rw [destroyFinish_snd, hreg]
        · rw [← hhd]
          exact destroyFinish_fst_intr hd _
        · intro hp0
          rw [← hhd]
          exact destroyFinish_fst_gpioEnabled_ne hd _ (by rw [hhd]; exact hp0)
        · intro hp0 g2
          have := destroyFinish_fst_gpioEnabled_zero hd { s with buttons := tl }
            (by rw [hhd]; exact hp0) g2
          simpa using this
      · simp only [button_find_by_gpio, if_neg hhd] at hreg
        rw [if_neg hhd] at hrun
        cases hloop : destroyLoop p tl fuel with
        | none => rw [hloop] at hrun; exact Option.noConfusion hrun
        | some r =>
            obtain ⟨fd2, newTl⟩ := r
            rw [hloop] at hrun
            rcases destroyLoop_eq_some hloop with ⟨ht, hf, hn⟩ | ⟨t, rest, ht, htg, hf, hn⟩
            · subst ht
              exact absurd hreg (by simp [button_find_by_gpio])
            · subst ht
              subst hf
              rw [hn] at hrun
              dsimp only at hrun
              simp only [button_find_by_gpio, if_pos htg, Option.some.injEq] at hreg
              simp only [List.map_cons, List.nodup_cons] at hnd2
              obtain ⟨hnd21, hnd22⟩ := hnd2
              injection hrun with h2
              injection h2 with h3 h4
              subst h3
              subst h4
              have hfindnone :
                  button_find_by_gpio p
                    ((destroyFinish t { s with buttons := hd :: rest }).1).buttons = none := by
                rw [destroyFinish_buttons]
                dsimp only
                apply find_eq_none
                intro c hc
                rcases List.mem_cons.mp hc with h5 | h5
                · rw [h5]; exact hhd
                · have hp : p ∉ rest.map Button.gpio := htg ▸ hnd21
                  exact not_mem_map_gpio hp c h5
              refine ⟨hfindnone, ?_, ?_, ?_, ?_, fun lvl => intr_noop_of_not_found hfindnone⟩
              · rw [destroyFinish_snd, hreg]
              · rw [← htg]
                exact destroyFinish_fst_intr t _
              · intro hp0
                rw [← htg]
                exact destroyFinish_fst_gpioEnabled_ne t _ (by rw [htg]; exact hp0)
              · intro hp0 g2
                have := destroyFinish_fst_gpioEnabled_zero t { s with buttons := hd :: rest }
                  (by rw [htg]; exact hp0) g2
                simpa using this

/-- Witness for C3: destroying registered pin 5 out of the concrete
two-button registry. -/
theorem C3_witness :
    button_find_by_gpio 5 sC3res.buttons = none ∧ sC3res.intrAttached 5 = false :=
  ⟨(@C3_destroy_postconditions sC3 5 1 (defaultButton 5) sC3res (some (defaultButton 5))
      (by decide) (by decide) (by rfl)).1,
   (@C3_destroy_postconditions sC3 5 1 (defaultButton 5) sC3res (some (defaultButton 5))
      (by decide) (by decide) (by rfl)).2.2.1⟩

/-- Claim C4: on a confirmed release with elapsed time below the long
threshold and a double-press handler bound, `push_up_timer_callback`
increments `press_count`; from 0 it arms the press timer for the
double-press window and dispatches nothing, and from 1 (press_count would
exceed 1) it disarms the press timer, resets `press_count` to 0 and
dispatches the double-press handler exactly once.  On the synthetic §8
timeline (two press/release pairs inside the 400 ms window) the complete
run dispatches double-press (user 20) exactly once and never
single-press (user 10). -/
theorem C4_double_press {s : State} {b : Button} {now : Nat} {hdl : Handler}
    (hfind : button_find_by_gpio s.used_gpio s.buttons = some b)
    (hdouble : b.doublepress_callback_fn = some hdl)
    (he : sub32 (now % UINT32_MOD) b.last_event_time * portTICK_PERIOD_MS < LONGPRESS_TIME) :
    (b.press_count = 0 →
      push_up_timer_callback true now s =
        some ({ s with frc2Running := false, buttons := setButton s.buttons { b with holdArmed := false, press_count := 1, pressArmed := true } }, [])) ∧
    (b.press_count = 1 →
      push_up_timer_callback true now s =
        some ({ s with frc2Running := false, buttons := setButton s.buttons { b with holdArmed := false, press_count := 0, pressArmed := false } },
          [(hdl, s.used_gpio)])) ∧
    Option.map Prod.snd (runOps C4ops initState) = some [(Handler.user 20, 5)] := by
  have hVc : VERYLONGPRESS_TIME / portTICK_PERIOD_MS = 120 := rfl
  have hLc : LONGPRESS_TIME / portTICK_PERIOD_MS = 45 := rfl
  simp only [LONGPRESS_TIME, portTICK_PERIOD_MS] at he
  have hnvl : ¬ VERYLONGPRESS_TIME / portTICK_PERIOD_MS <
      sub32 (now % UINT32_MOD) b.last_event_time := by rw [hVc]; omega
  have hnl : ¬ LONGPRESS_TIME / portTICK_PERIOD_MS <
      sub32 (now % UINT32_MOD) b.last_event_time := by rw [hLc]; omega
  refine ⟨?_, ?_, by decide⟩
  · intro hp0
    unfold push_up_timer_callback
    dsimp only
    rw [if_pos rfl, hfind]
    dsimp only
    unfold classifyRelease
    dsimp only
    rw [if_neg hnvl, if_neg hnl, hdouble]
    dsimp only
    rw [hp0]
    simp
  · intro hp1
    unfold push_up_timer_callback
    dsimp only
    rw [if_pos rfl, hfind]
    dsimp only
    unfold classifyRelease
    dsimp only
    rw [if_neg hnvl, if_neg hnl, hdouble]
    dsimp only
    rw [hp1]
    simp

/-- Witness for C4: the arm-the-window branch at the concrete state `sW`
(release confirmed 5 ticks after the press). -/
theorem C4_witness :
    push_up_timer_callback true 5 sW =
      some ({ sW with frc2Running := false, buttons := setButton sW.buttons { bW with holdArmed := false, press_count := 1, pressArmed := true } }, []) :=
  (@C4_double_press sW bW 5 (Handler.user 20) (by decide) (by decide) (by decide)).1 (by decide)

end AdvButton
